import Mathlib

/-!
Verification development for a TypeScript-import scanning tool.

The embedding models, from the Python sources:
  * `src/tools/get_imports_from_file.py`:
    `get_tsconfig_base_url`, `resolve_import_path`, `extract_imports`,
    `create_file_dependency_graph`;
  * `src/tools/get_app_folder_dependencies.py`: `get_app_folder_dependencies`
    (including the semantics of its Cypher query: nodes whose path contains
    "/app/", distinct targets reachable via one or more IMPORTS edges);
  * `src/utils/helper_functions.py`: `find_tsconfig_dir`;
  * `src/main.py`: the per-file scanning loop (`scanBatch`).

The filesystem is a parameter (`FS`): a current working directory, the set of
existing files (normalized absolute paths), per-path file contents given as the
list of raw import string literals that tree-sitter traversal would yield in
document order (`none` models a read failure), and per-path tsconfig parse
results (`none` models a JSON parse failure).  Path arithmetic mirrors CPython
`os.path`: `pathJoin` is `os.path.join`, `dirname` is `os.path.dirname`,
`abspath` is `os.path.abspath` (join with the cwd, then `normpath`), and
`FS.isfile` checks membership of the absolutized path, matching how the OS
resolves a possibly relative path handed to `os.path.isfile`.
-/

/-- Model of `str.startswith(p)`: `p` is a prefix of `s` (by code points). -/
def strStartsWith (s p : String) : Bool :=
  p.data.isPrefixOf s.data

/-- Model of `str.endswith(p)`. -/
def strEndsWith (s p : String) : Bool :=
  p.data.reverse.isPrefixOf s.data.reverse

/-- Helper for substring search: does `sub` occur inside `l`? -/
def infixAux (sub : List Char) : List Char → Bool
  | [] => sub.isEmpty
  | c :: rest => sub.isPrefixOf (c :: rest) || infixAux sub rest

/-- Model of Python `sub in s` / Cypher `CONTAINS`: substring containment. -/
def strContains (s sub : String) : Bool :=
  infixAux sub.data s.data

/-- Model of Python slicing `s[n:]` (by code points). -/
def strDrop (s : String) (n : Nat) : String :=
  String.mk (s.data.drop n)

/-- Model of `str.strip(c)` for a single character: remove every leading and
trailing occurrence of `c`. -/
def stripChar (c : Char) (s : String) : String :=
  String.mk (((s.data.dropWhile (· == c)).reverse.dropWhile (· == c)).reverse)

/-- Model of `raw_text.strip('"').strip("'")` in `extract_imports`. -/
def stripQuotes (s : String) : String :=
  stripChar '\'' (stripChar '"' s)

/-- Split a path on `/` separators. -/
def splitSlash : List Char → List Char → List String
  | [], acc => [String.mk acc.reverse]
  | c :: rest, acc =>
    if c == '/' then String.mk acc.reverse :: splitSlash rest []
    else splitSlash rest (c :: acc)

/-- Join path components with `/`. -/
def joinComponents : List String → String
  | [] => ""
  | [c] => c
  | c :: rest => c ++ "/" ++ joinComponents rest

/-- Stack-based component normalization: drop empty and `.` components and
resolve `..`, as `os.path.normpath` does on an absolute path. -/
def normParts : List String → List String → List String
  | acc, [] => acc.reverse
  | acc, p :: rest =>
    if p = "" then normParts acc rest
    else if p = "." then normParts acc rest
    else if p = ".." then
      match acc with
      | [] => normParts [] rest
      | _ :: tl => normParts tl rest
    else normParts (p :: acc) rest

/-- Model of `os.path.normpath` on an absolute path. -/
def normAbsPath (p : String) : String :=
  "/" ++ joinComponents (normParts [] (splitSlash p.data []))

/-- Does the path start with `/`? -/
def isAbsPath (p : String) : Bool :=
  strStartsWith p "/"

/-- Model of `os.path.join(a, b)` (POSIX): an absolute `b` discards `a`. -/
def pathJoin (a b : String) : String :=
  if isAbsPath b then b
  else if a = "" then b
  else if strEndsWith a "/" then a ++ b
  else a ++ "/" ++ b

/-- Model of `os.path.abspath(p)` relative to a (normalized absolute) `cwd`:
`normpath(join(cwd, p))`. -/
def abspath (cwd p : String) : String :=
  normAbsPath (pathJoin cwd p)

/-- Model of `os.path.dirname(p)` (POSIX). -/
def dirname (p : String) : String :=
  let head := (p.data.reverse.dropWhile (· != '/')).reverse
  if head.isEmpty then ""
  else if head.all (· == '/') then String.mk head
  else String.mk (head.reverse.dropWhile (· == '/')).reverse

/-- Parse result of one `tsconfig.json`: the `compilerOptions.baseUrl` entry,
absent when the key is missing. -/
structure TsConfig where
  baseUrl : Option String
deriving DecidableEq

/-- The filesystem state the tool runs against.  `files` holds the normalized
absolute paths of the existing regular files; `contents f` is the document-order
list of raw import string literals of the file opened as `f` (`none` = the read
raises `OSError`); `parse p` is the JSON parse result of the tsconfig at
normalized absolute path `p` (`none` = `json.JSONDecodeError`). -/
structure FS where
  cwd : String
  files : List String
  contents : String → Option (List String)
  parse : String → Option TsConfig

/-- Model of `os.path.isfile`: absolutize against the cwd (as the OS does when
resolving a relative path) and look the path up. -/
def FS.isfile (fs : FS) (p : String) : Bool :=
  decide (abspath fs.cwd p ∈ fs.files)

/-- Upward walk of `get_tsconfig_base_url` (src/tools/get_imports_from_file.py,
lines 199-216), after the initial `os.path.abspath(start_dir)`.  A parseable
tsconfig returns `compilerOptions.baseUrl` (possibly absent, i.e. `None`); a
malformed one is swallowed by the `except ... pass` and the walk continues to
the parent; the walk stops when `dirname` reaches a fixpoint.  Fuel bounds the
recursion; any fuel larger than the number of path components is enough. -/
def tsconfigWalk (fs : FS) : Nat → String → Option String
  | 0, _ => none
  | fuel + 1, current_dir =>
    if fs.isfile (pathJoin current_dir "tsconfig.json") then
      match fs.parse (abspath fs.cwd (pathJoin current_dir "tsconfig.json")) with
      | some cfg => cfg.baseUrl
      | none =>
        if dirname current_dir = current_dir then none
        else tsconfigWalk fs fuel (dirname current_dir)
    else
      if dirname current_dir = current_dir then none
      else tsconfigWalk fs fuel (dirname current_dir)

/-- Model of `get_tsconfig_base_url(start_dir)`. -/
def get_tsconfig_base_url (fs : FS) (fuel : Nat) (start_dir : String) : Option String :=
  tsconfigWalk fs fuel (abspath fs.cwd start_dir)

/-- Upward walk of `find_tsconfig_dir` (src/utils/helper_functions.py): return
the first directory containing a `tsconfig.json`. -/
def tsconfigDirWalk (fs : FS) : Nat → String → Option String
  | 0, _ => none
  | fuel + 1, current_dir =>
    if fs.isfile (pathJoin current_dir "tsconfig.json") then some current_dir
    else
      if dirname current_dir = current_dir then none
      else tsconfigDirWalk fs fuel (dirname current_dir)

/-- Model of `find_tsconfig_dir(start_dir)`. -/
def find_tsconfig_dir (fs : FS) (fuel : Nat) (start_dir : String) : Option String :=
  tsconfigDirWalk fs fuel (abspath fs.cwd start_dir)

/-- The `potential_extensions` list of `resolve_import_path`. -/
def potential_extensions : List String :=
  [".ts", ".tsx", ".js", ".jsx"]

/-- Step 1 of `resolve_import_path` (lines 221-232): alias substitution for
specifiers starting with `@/`.  With a truthy `baseUrl` the code sets
`import_path = os.path.join(base_url, import_path[2:])`; otherwise it strips
the `@/` prefix. -/
def substAlias (fs : FS) (fuel : Nat) (base_dir spec : String) : String :=
  if strStartsWith spec "@/" then
    match get_tsconfig_base_url fs fuel base_dir with
    | some bu => if bu = "" then strDrop spec 2 else pathJoin bu (strDrop spec 2)
    | none => strDrop spec 2
  else spec

/-- Step 2 of `resolve_import_path`: the direct-file candidates
`os.path.join(base_dir, import_path + ext)`, in extension order. -/
def directCandidates (base_dir spec : String) : List String :=
  potential_extensions.map (fun ext => pathJoin base_dir (spec ++ ext))

/-- Step 3 of `resolve_import_path`: the index-file candidates
`os.path.join(base_dir, import_path, "index" + ext)`, in extension order. -/
def indexCandidates (base_dir spec : String) : List String :=
  potential_extensions.map (fun ext => pathJoin (pathJoin base_dir spec) ("index" ++ ext))

/-- Model of `resolve_import_path(base_dir, import_path)`: after alias
substitution, return `os.path.abspath` of the first existing candidate, direct
files before index files, or `None`. -/
def resolve_import_path (fs : FS) (fuel : Nat) (base_dir spec : String) : Option String :=
  ((directCandidates base_dir (substAlias fs fuel base_dir spec)
      ++ indexCandidates base_dir (substAlias fs fuel base_dir spec)).find? fs.isfile).map
    (abspath fs.cwd)

/-- Per-specifier classification of `extract_imports` (lines 79-97), applied to
the already-unquoted specifier: specifiers starting with `next` are dropped;
local-looking ones (`.`, `/`, `@`) are resolved, falling back to the raw
specifier on failure; anything else is kept as an external package name. -/
def classifySpecifier (fs : FS) (fuel : Nat) (base_dir import_path : String) : List String :=
  if strStartsWith import_path "next" then []
  else if strStartsWith import_path "." || strStartsWith import_path "/"
      || strStartsWith import_path "@" then
    match resolve_import_path fs fuel base_dir import_path with
    | some full => [full]
    | none => [import_path]
  else [import_path]

/-- The appends performed by the `for node in traverse_tree(tree)` loop of
`extract_imports`, over the document-order list of raw string literals. -/
def importsOfLiterals (fs : FS) (fuel : Nat) (base_dir : String) : List String → List String
  | [] => []
  | lit :: rest =>
    classifySpecifier fs fuel base_dir (stripQuotes lit)
      ++ importsOfLiterals fs fuel base_dir rest

/-- The per-file record produced by `extract_imports`. -/
structure ImportRecord where
  file : String
  imports : List String
deriving DecidableEq

/-- Model of `extract_imports(file_path)`: reading the file may raise (modelled
as `Except.error file_path`); on success the record keeps `file_path` exactly as
passed and collects the classified specifiers, using
`base_dir = os.path.dirname(file_path)`. -/
def extract_imports (fs : FS) (fuel : Nat) (file_path : String) :
    Except String ImportRecord :=
  match fs.contents file_path with
  | none => .error file_path
  | some lits =>
    .ok ⟨file_path, importsOfLiterals fs fuel (dirname file_path) lits⟩

/-- Model of the scanning loop of `src/main.py` (lines 33-36): call
`extract_imports` on each file in turn and collect the records.  The loop has
no exception handling, so the first read failure propagates. -/
def scanBatch (fs : FS) (fuel : Nat) : List String → Except String (List ImportRecord)
  | [] => .ok []
  | f :: rest =>
    match extract_imports fs fuel f with
    | .error e => .error e
    | .ok r =>
      match scanBatch fs fuel rest with
      | .error e => .error e
      | .ok rs => .ok (r :: rs)

/-- The graph store state: `File` nodes keyed by `path`, and directed `IMPORTS`
relationships keyed by the (source path, target path) pair, as merged by
`tx.merge(..., "File", "path")` / `tx.merge(rel)` in py2neo. -/
structure GraphState where
  nodes : List String
  edges : List (String × String)
deriving DecidableEq

/-- Upsert of a `File` node: `tx.merge(node, "File", "path")`. -/
def upsertNode (nodes : List String) (p : String) : List String :=
  if p ∈ nodes then nodes else nodes ++ [p]

/-- Upsert of an `IMPORTS` relationship: `tx.merge(rel)`. -/
def upsertEdge (edges : List (String × String)) (e : String × String) :
    List (String × String) :=
  if e ∈ edges then edges else edges ++ [e]

/-- Body of the inner loop of `create_file_dependency_graph` (lines 180-187):
an empty (falsy) import string is skipped; otherwise the target node and the
`IMPORTS` relationship are upserted.  No other filtering happens. -/
def addImport (src : String) (st : GraphState) (imp : String) : GraphState :=
  if imp = "" then st
  else ⟨upsertNode st.nodes imp, upsertEdge st.edges (src, imp)⟩

/-- Body of the outer loop (lines 172-187): upsert the source node, then fold
the inner loop over the record's imports. -/
def addRecord (st : GraphState) (r : ImportRecord) : GraphState :=
  r.imports.foldl (addImport r.file) ⟨upsertNode st.nodes r.file, st.edges⟩

/-- Model of `create_file_dependency_graph(files_import_info)`: after
`graph.delete_all()` the store is empty, then every record is inserted. -/
def create_file_dependency_graph (records : List ImportRecord) : GraphState :=
  records.foldl addRecord ⟨[], []⟩

/-- Outgoing `IMPORTS` targets of a node. -/
def successors (edges : List (String × String)) (x : String) : List String :=
  (edges.filter (fun e => decide (e.fst = x))).map Prod.snd

/-- Visited-set traversal computing the distinct set of nodes reachable from
the given frontier; this is the semantics of Cypher's
`(f)-[:IMPORTS*1..]->(dep)` with `collect(DISTINCT dep.path)` when started on
`successors edges f`.  Fuel bounds the loop; `2 * edges.length + 1` always
suffices since every processed stack entry either is already visited or
contributes its successors exactly once. -/
def reachAux (edges : List (String × String)) :
    Nat → List String → List String → List String
  | 0, visited, _ => visited.reverse
  | _ + 1, visited, [] => visited.reverse
  | fuel + 1, visited, x :: stack =>
    if x ∈ visited then reachAux edges fuel visited stack
    else reachAux edges fuel (x :: visited) (stack ++ successors edges x)

/-- Distinct targets reachable from `src` via one or more `IMPORTS` edges. -/
def reachOnePlus (edges : List (String × String)) (src : String) : List String :=
  reachAux edges (2 * edges.length + 1) [] (successors edges src)

/-- Model of `get_app_folder_dependencies`
(src/tools/get_app_folder_dependencies.py): the Cypher query keeps `File` nodes
whose path contains `/app/` and collects the distinct targets reachable via
`[:IMPORTS*1..]`; the Python post-processing removes the file's own path from
its own dependency list when present. -/
def get_app_folder_dependencies (nodes : List String)
    (edges : List (String × String)) : List (String × List String) :=
  (nodes.filter (fun p => strContains p "/app/")).map (fun p =>
    (p, if p ∈ reachOnePlus edges p then (reachOnePlus edges p).erase p
        else reachOnePlus edges p))

/-! ### Concrete fixtures used by the claim theorems -/

/-- Project with a tsconfig at `/proj` configuring `baseUrl = "src"` and a file
`/proj/app/src/x.ts`; importers live at `/proj/app` and `/proj/app/sub`. -/
def fsC1 : FS where
  cwd := "/"
  files := ["/proj/tsconfig.json", "/proj/app/src/x.ts"]
  contents := fun _ => none
  parse := fun p => if p = "/proj/tsconfig.json" then some ⟨some "src"⟩ else none

/-- Scan of a relative `code_dir` as `src/main.py` does: the working directory
is `/w`, the scanned files are handed to `extract_imports` under their
relative paths, and `a.tsx` imports `./b`. -/
def fsC3 : FS where
  cwd := "/w"
  files := ["/w/full-stack-nextjs/app/a.tsx", "/w/full-stack-nextjs/app/b.tsx"]
  contents := fun p =>
    if p = "full-stack-nextjs/app/a.tsx" then some ["\"./b\""]
    else if p = "full-stack-nextjs/app/b.tsx" then some []
    else none
  parse := fun _ => none

/-- Batch with two readable files and one unreadable file `bad`. -/
def fsC4 : FS where
  cwd := "/"
  files := []
  contents := fun p =>
    if p = "g1" then some []
    else if p = "g2" then some []
    else none
  parse := fun _ => none

/-- Both `components/x.tsx` and `components/x/index.tsx` exist. -/
def fsC5 : FS where
  cwd := "/"
  files := ["/r/components/x.tsx", "/r/components/x/index.tsx"]
  contents := fun _ => none
  parse := fun _ => none

/-- Nodes and edges of a cyclic `IMPORTS` graph: the `/app/` file and another
file import each other. -/
def nodesC6 : List String :=
  ["/r/app/a.tsx", "/r/b.tsx"]

/-- Edges of the cyclic graph of `nodesC6`. -/
def edgesC6 : List (String × String) :=
  [("/r/app/a.tsx", "/r/b.tsx"), ("/r/b.tsx", "/r/app/a.tsx")]

/-- `a.tsx` imports `./b` (which exists as `b.tsx`), `lodash`, and
`next/router`. -/
def fsC7 : FS where
  cwd := "/w"
  files := ["/w/proj/app/a.tsx", "/w/proj/app/b.tsx"]
  contents := fun p =>
    if p = "/w/proj/app/a.tsx" then some ["\"./b\"", "\"lodash\"", "\"next/router\""]
    else none
  parse := fun _ => none

/-- Empty filesystem: nothing resolves. -/
def fsC8 : FS where
  cwd := "/"
  files := []
  contents := fun _ => none
  parse := fun _ => none

/-- `/p/q/tsconfig.json` exists but is malformed; `/p/tsconfig.json` parses
with `baseUrl = "src"`. -/
def fsC9 : FS where
  cwd := "/"
  files := ["/p/q/tsconfig.json", "/p/tsconfig.json"]
  contents := fun _ => none
  parse := fun p => if p = "/p/tsconfig.json" then some ⟨some "src"⟩ else none

/-- Empty filesystem used for the specifier-dropping scenario. -/
def fsC10 : FS where
  cwd := "/"
  files := []
  contents := fun _ => none
  parse := fun _ => none

/-! ### Helper lemmas -/

theorem find?_append_left {α : Type} {p : α → Bool} {l₁ l₂ : List α} {a : α}
    (h : l₁.find? p = some a) : (l₁ ++ l₂).find? p = some a := by
  rw [List.find?_append, h, Option.or_some]

theorem startsWith_head {s p : String} {c : Char} {pr : List Char}
    (hp : p.data = c :: pr) (h : strStartsWith s p = true) :
    ∃ t, s.data = c :: t := by
  unfold strStartsWith at h
  rw [hp] at h
  cases hs : s.data with
  | nil => rw [hs] at h; simp [List.isPrefixOf] at h
  | cons b bs =>
    rw [hs] at h
    simp only [List.isPrefixOf, Bool.and_eq_true, beq_iff_eq] at h
    exact ⟨bs, by rw [h.1]⟩

theorem startsWith_disjoint {s p q : String} {c d : Char} {pr qr : List Char}
    (hp : p.data = c :: pr) (hq : q.data = d :: qr) (hcd : c ≠ d)
    (h : strStartsWith s p = true) : strStartsWith s q = false := by
  cases hq2 : strStartsWith s q
  · rfl
  · obtain ⟨t1, h1⟩ := startsWith_head hp h
    obtain ⟨t2, h2⟩ := startsWith_head hq hq2
    rw [h1] at h2
    injection h2 with hcd2 _
    exact absurd hcd2 hcd

theorem mem_upsertEdge {edges : List (String × String)} {e : String × String}
    (e' : String × String) (h : e ∈ edges) : e ∈ upsertEdge edges e' := by
  unfold upsertEdge
  split
  · exact h
  · exact List.mem_append_left _ h

theorem self_mem_upsertEdge (edges : List (String × String)) (e : String × String) :
    e ∈ upsertEdge edges e := by
  unfold upsertEdge
  split
  · assumption
  · exact List.mem_append_right _ (List.mem_singleton.mpr rfl)

theorem addImport_edges_mono {src : String} {st : GraphState} {imp : String}
    {e : String × String} (h : e ∈ st.edges) : e ∈ (addImport src st imp).edges := by
  unfold addImport
  split
  · exact h
  · exact mem_upsertEdge _ h

theorem foldl_addImport_edges_mono {src : String} {e : String × String} :
    ∀ (l : List String) (st : GraphState), e ∈ st.edges →
      e ∈ (l.foldl (addImport src) st).edges
  | [], _, h => h
  | _ :: rest, _, h =>
    foldl_addImport_edges_mono rest _ (addImport_edges_mono h)

theorem foldl_addImport_adds {src imp : String} :
    ∀ (l : List String) (st : GraphState), imp ∈ l → imp ≠ "" →
      (src, imp) ∈ (l.foldl (addImport src) st).edges := by
  intro l
  induction l with
  | nil => intro st h; exact absurd h (List.not_mem_nil _)
  | cons a rest ih =>
    intro st h hne
    rcases List.mem_cons.mp h with heq | htail
    · subst heq
      apply foldl_addImport_edges_mono rest
      unfold addImport
      rw [if_neg hne]
      exact self_mem_upsertEdge _ _
    · exact ih _ htail hne

theorem addRecord_edges_mono {st : GraphState} {r : ImportRecord}
    {e : String × String} (h : e ∈ st.edges) : e ∈ (addRecord st r).edges :=
  foldl_addImport_edges_mono _ _ h

theorem addRecord_self_edge {st : GraphState} {r : ImportRecord}
    (h : r.file ∈ r.imports) (hne : r.file ≠ "") :
    (r.file, r.file) ∈ (addRecord st r).edges :=
  foldl_addImport_adds _ _ h hne

theorem foldl_addRecord_edges_mono {e : String × String} :
    ∀ (records : List ImportRecord) (st : GraphState), e ∈ st.edges →
      e ∈ (records.foldl addRecord st).edges
  | [], _, h => h
  | _ :: rest, _, h =>
    foldl_addRecord_edges_mono rest _ (addRecord_edges_mono h)

theorem foldl_addRecord_edge {r : ImportRecord} :
    ∀ (records : List ImportRecord) (st : GraphState), r ∈ records →
      r.file ∈ r.imports → r.file ≠ "" →
      (r.file, r.file) ∈ (records.foldl addRecord st).edges := by
  intro records
  induction records with
  | nil => intro st h; exact absurd h (List.not_mem_nil _)
  | cons a rest ih =>
    intro st h hmem hne
    rcases List.mem_cons.mp h with heq | htail
    · subst heq
      exact foldl_addRecord_edges_mono rest _ (addRecord_self_edge hmem hne)
    · exact ih _ htail hmem hne

theorem reachAux_nodup (edges : List (String × String)) :
    ∀ (fuel : Nat) (visited stack : List String), visited.Nodup →
      (reachAux edges fuel visited stack).Nodup := by
  intro fuel
  induction fuel with
  | zero => intro visited stack h; exact List.nodup_reverse.mpr h
  | succ n ih =>
    intro visited stack h
    cases stack with
    | nil => exact List.nodup_reverse.mpr h
    | cons x rest =>
      unfold reachAux
      split
      · exact ih _ _ h
      · exact ih _ _ (List.nodup_cons.mpr ⟨by assumption, h⟩)

theorem reachOnePlus_nodup (edges : List (String × String)) (src : String) :
    (reachOnePlus edges src).Nodup :=
  reachAux_nodup edges _ _ _ List.nodup_nil

theorem importsOfLiterals_append (fs : FS) (fuel : Nat) (base_dir : String)
    (l1 l2 : List String) :
    importsOfLiterals fs fuel base_dir (l1 ++ l2)
      = importsOfLiterals fs fuel base_dir l1 ++ importsOfLiterals fs fuel base_dir l2 := by
  induction l1 with
  | nil => simp [importsOfLiterals]
  | cons a rest ih => simp [importsOfLiterals, ih]

/-! ### Claim theorems -/

/-- C5: `resolve_import_path` probes the direct-file candidates (extension
order `.ts`, `.tsx`, `.js`, `.jsx`) before any index-file candidate: whenever
some direct candidate exists, the result is the absolutized first existing
direct candidate and no index file is returned. -/
theorem c5_direct_file_precedence (fs : FS) (fuel : Nat) (base_dir spec c : String)
    (h : (directCandidates base_dir (substAlias fs fuel base_dir spec)).find? fs.isfile
        = some c) :
    resolve_import_path fs fuel base_dir spec = some (abspath fs.cwd c) := by
  unfold resolve_import_path
  rw [find?_append_left h]
  rfl

/-- C5 witness: with both `components/x.tsx` and `components/x/index.tsx`
existing, resolving `./x` from the `components` directory returns the absolute
path of `components/x.tsx`, not the index file. -/
theorem c5_direct_file_precedence_witness :
    (directCandidates "/r/components" (substAlias fsC5 5 "/r/components" "./x")).find?
        fsC5.isfile = some "/r/components/./x.tsx"
    ∧ resolve_import_path fsC5 5 "/r/components" "./x"
        = some (abspath fsC5.cwd "/r/components/./x.tsx")
    ∧ abspath fsC5.cwd "/r/components/./x.tsx" = "/r/components/x.tsx"
    ∧ fsC5.isfile "/r/components/x.tsx" = true
    ∧ fsC5.isfile "/r/components/x/index.tsx" = true :=
  ⟨by decide,
   c5_direct_file_precedence fsC5 5 "/r/components" "./x" "/r/components/./x.tsx" (by decide),
   by decide, by decide, by decide⟩

/-- C8: for a local-looking specifier (starting with `.`, `/`, or `@`) none of
whose extension or index candidates exists, `resolve_import_path` returns
`None` and the classification step of `extract_imports` records the raw
specifier string itself; nothing throws. -/
theorem c8_unresolved_local_fallback (fs : FS) (fuel : Nat) (base_dir spec : String)
    (hloc : strStartsWith spec "." = true ∨ strStartsWith spec "/" = true
      ∨ strStartsWith spec "@" = true)
    (hnofile : ∀ c ∈ directCandidates base_dir (substAlias fs fuel base_dir spec)
        ++ indexCandidates base_dir (substAlias fs fuel base_dir spec),
        fs.isfile c = false) :
    resolve_import_path fs fuel base_dir spec = none
    ∧ classifySpecifier fs fuel base_dir spec = [spec] := by
  have hres : resolve_import_path fs fuel base_dir spec = none := by
    unfold resolve_import_path
    rw [List.find?_eq_none.mpr (fun c hc => by simp [hnofile c hc])]
    rfl
  have hnext : strStartsWith spec "next" = false := by
    rcases hloc with h | h | h
    · exact startsWith_disjoint (by decide : ".".data = '.' :: [])
        (by decide : "next".data = 'n' :: ['e', 'x', 't']) (by decide) h
    · exact startsWith_disjoint (by decide : "/".data = '/' :: [])
        (by decide : "next".data = 'n' :: ['e', 'x', 't']) (by decide) h
    · exact startsWith_disjoint (by decide : "@".data = '@' :: [])
        (by decide : "next".data = 'n' :: ['e', 'x', 't']) (by decide) h
  have hcond : (strStartsWith spec "." || strStartsWith spec "/"
      || strStartsWith spec "@") = true := by
    rcases hloc with h | h | h <;> simp [h]
  refine ⟨hres, ?_⟩
  unfold classifySpecifier
  rw [hnext, hcond, hres]
  rfl

/-- C8 witness: the unresolved local specifier `./nothing` on an empty
filesystem. -/
theorem c8_unresolved_local_fallback_witness :
    (strStartsWith "./nothing" "." = true ∨ strStartsWith "./nothing" "/" = true
      ∨ strStartsWith "./nothing" "@" = true)
    ∧ (∀ c ∈ directCandidates "/d" (substAlias fsC8 5 "/d" "./nothing")
        ++ indexCandidates "/d" (substAlias fsC8 5 "/d" "./nothing"),
        fsC8.isfile c = false)
    ∧ (resolve_import_path fsC8 5 "/d" "./nothing" = none
        ∧ classifySpecifier fsC8 5 "/d" "./nothing" = ["./nothing"]) :=
  ⟨Or.inl (by decide), by decide,
   c8_unresolved_local_fallback fsC8 5 "/d" "./nothing" (Or.inl (by decide)) (by decide)⟩

/-- C10: any import specifier whose unquoted text begins with the literal
string `next` — framework imports like `next/router` as well as package names
like `nextui` — is dropped by `extract_imports` before classification: the
collected imports are the same as if the specifier were not present. -/
theorem c10_next_prefix_dropped (fs : FS) (fuel : Nat) (base_dir lit : String)
    (l1 l2 : List String) (h : strStartsWith (stripQuotes lit) "next" = true) :
    importsOfLiterals fs fuel base_dir (l1 ++ lit :: l2)
      = importsOfLiterals fs fuel base_dir (l1 ++ l2) := by
  rw [importsOfLiterals_append, importsOfLiterals_append]
  have hlit : importsOfLiterals fs fuel base_dir (lit :: l2)
      = importsOfLiterals fs fuel base_dir l2 := by
    simp [importsOfLiterals, classifySpecifier, h]
  rw [hlit]

/-- C10 witness: the external package name `nextui`, which merely starts with
`next`, never appears in the imports list. -/
theorem c10_next_prefix_dropped_witness :
    strStartsWith (stripQuotes "\"nextui\"") "next" = true
    ∧ importsOfLiterals fsC10 5 "/d" (["\"react\""] ++ "\"nextui\"" :: ["\"lodash\""])
        = importsOfLiterals fsC10 5 "/d" (["\"react\""] ++ ["\"lodash\""]) :=
  ⟨by decide,
   c10_next_prefix_dropped fsC10 5 "/d" "\"nextui\"" ["\"react\""] ["\"lodash\""] (by decide)⟩

/-- C7: scanning `a.tsx`, which imports `./b` (resolving to the sibling
`b.tsx`), `lodash` (external), and `next/router` (ignored prefix), yields
exactly the imports list `[absolute path of b.tsx, "lodash"]` in document
order, with `next/router` absent. -/
theorem c7_end_to_end :
    extract_imports fsC7 20 "/w/proj/app/a.tsx"
      = .ok ⟨"/w/proj/app/a.tsx", ["/w/proj/app/b.tsx", "lodash"]⟩
    ∧ fsC7.isfile "/w/proj/app/b.tsx" = true :=
  ⟨rfl, by decide⟩

/-- C6: the dependency list that `get_app_folder_dependencies` returns for a
file matching the `/app/` filter never contains that file's own path, for
every `IMPORTS` graph — cyclic ones included; the traversal collects distinct
paths and the file's own path is removed from its own result set. -/
theorem c6_no_self_dependency (nodes : List String) (edges : List (String × String))
    (p : String) (deps : List String)
    (h : (p, deps) ∈ get_app_folder_dependencies nodes edges) : p ∉ deps := by
  unfold get_app_folder_dependencies at h
  obtain ⟨q, hq, heq⟩ := List.mem_map.mp h
  obtain ⟨hqp, hdeps⟩ := Prod.mk.injEq .. ▸ heq
  subst hqp
  subst hdeps
  split
  · exact (reachOnePlus_nodup edges q).not_mem_erase
  · assumption

/-- C6 witness: a two-node import cycle through an `/app/` file. -/
theorem c6_no_self_dependency_witness :
    ("/r/app/a.tsx", ["/r/b.tsx"]) ∈ get_app_folder_dependencies nodesC6 edgesC6
    ∧ "/r/app/a.tsx" ∉ (["/r/b.tsx"] : List String) :=
  ⟨by decide, c6_no_self_dependency nodesC6 edgesC6 _ _ (by decide)⟩

/-- C1 counterexample: with a tsconfig at `/proj` configuring `baseUrl = src`,
the importers at `/proj/app` and `/proj/app/sub` share the same configuration
scope yet obtain different results for `@/x`, and the non-null result is not a
path under the configured base directory `/proj/src` — it lives under
the importer's own directory.  This refutes C1 as stated. -/
theorem c1_counterexample :
    find_tsconfig_dir fsC1 20 "/proj/app" = some "/proj"
    ∧ find_tsconfig_dir fsC1 20 "/proj/app/sub" = some "/proj"
    ∧ fsC1.parse "/proj/tsconfig.json" = some ⟨some "src"⟩
    ∧ resolve_import_path fsC1 20 "/proj/app" "@/x" = some "/proj/app/src/x.ts"
    ∧ resolve_import_path fsC1 20 "/proj/app/sub" "@/x" = none
    ∧ resolve_import_path fsC1 20 "/proj/app" "@/x"
        ≠ resolve_import_path fsC1 20 "/proj/app/sub" "@/x"
    ∧ strStartsWith "/proj/app/src/x.ts" "/proj/src/" = false := by
  refine ⟨?_, ?_, ?_, ?_, ?_, ?_, ?_⟩ <;> decide

/-- C1 amended: for an `@/` specifier whose configuration walk finds a
non-empty `baseUrl`, every non-null result of `resolve_import_path` is the
absolutization of a candidate formed by joining the importer's own directory
(not the configuration directory) with `baseUrl` and the specifier remainder;
hence importers in the same configuration scope but different directories may
obtain different results. -/
theorem c1_alias_anchored_at_importer_dir (fs : FS) (fuel : Nat)
    (base_dir spec bu r : String)
    (h1 : strStartsWith spec "@/" = true)
    (h2 : get_tsconfig_base_url fs fuel base_dir = some bu)
    (h3 : bu ≠ "")
    (h4 : resolve_import_path fs fuel base_dir spec = some r) :
    ∃ ext ∈ potential_extensions,
      (fs.isfile (pathJoin base_dir (pathJoin bu (strDrop spec 2) ++ ext)) = true
        ∧ r = abspath fs.cwd (pathJoin base_dir (pathJoin bu (strDrop spec 2) ++ ext)))
      ∨ (fs.isfile (pathJoin (pathJoin base_dir (pathJoin bu (strDrop spec 2)))
            ("index" ++ ext)) = true
        ∧ r = abspath fs.cwd (pathJoin (pathJoin base_dir (pathJoin bu (strDrop spec 2)))
            ("index" ++ ext))) := by
  have hs : substAlias fs fuel base_dir spec = pathJoin bu (strDrop spec 2) := by
    unfold substAlias
    rw [h1, h2]
    simp [h3]
  unfold resolve_import_path at h4
  rw [hs] at h4
  obtain ⟨c, hc, hr⟩ := Option.map_eq_some'.mp h4
  have hmem := List.mem_of_find?_eq_some hc
  have hfile := List.find?_some hc
  rcases List.mem_append.mp hmem with hd | hi
  · obtain ⟨ext, hext, hceq⟩ := List.mem_map.mp hd
    refine ⟨ext, hext, Or.inl ⟨?_, ?_⟩⟩
    · rw [hceq]; exact hfile
    · rw [hceq]; exact hr.symm
  · obtain ⟨ext, hext, hceq⟩ := List.mem_map.mp hi
    refine ⟨ext, hext, Or.inr ⟨?_, ?_⟩⟩
    · rw [hceq]; exact hfile
    · rw [hceq]; exact hr.symm

/-- C1 amended witness: the resolved `@/x` from `/proj/app` is the direct
`.ts` candidate under `/proj/app/src`, the importer's directory joined with
the configured `baseUrl`. -/
theorem c1_alias_anchored_at_importer_dir_witness :
    strStartsWith "@/x" "@/" = true
    ∧ get_tsconfig_base_url fsC1 20 "/proj/app" = some "src"
    ∧ ("src" : String) ≠ ""
    ∧ resolve_import_path fsC1 20 "/proj/app" "@/x" = some "/proj/app/src/x.ts"
    ∧ ∃ ext ∈ potential_extensions,
      (fsC1.isfile (pathJoin "/proj/app" (pathJoin "src" (strDrop "@/x" 2) ++ ext)) = true
        ∧ "/proj/app/src/x.ts"
            = abspath fsC1.cwd (pathJoin "/proj/app" (pathJoin "src" (strDrop "@/x" 2) ++ ext)))
      ∨ (fsC1.isfile (pathJoin (pathJoin "/proj/app" (pathJoin "src" (strDrop "@/x" 2)))
            ("index" ++ ext)) = true
        ∧ "/proj/app/src/x.ts"
            = abspath fsC1.cwd (pathJoin (pathJoin "/proj/app" (pathJoin "src" (strDrop "@/x" 2)))
                ("index" ++ ext))) :=
  ⟨by decide, by decide, by decide, by decide,
   c1_alias_anchored_at_importer_dir fsC1 20 "/proj/app" "@/x" "src" "/proj/app/src/x.ts"
     (by decide) (by decide) (by decide) (by decide)⟩

/-- C2 counterexample: a record whose imports list contains the record's own
file path produces a self-loop `IMPORTS` edge in the graph built by
`create_file_dependency_graph` — the inner loop only skips empty strings and
performs no self-reference filtering.  This refutes C2 as stated. -/
theorem c2_counterexample :
    ("/a", "/a") ∈ (create_file_dependency_graph [⟨"/a", ["/a"]⟩]).edges := by
  decide

/-- C2 amended: `create_file_dependency_graph` filters only empty import
strings, not self-references: every record whose imports list contains its own
non-empty file path yields a self-loop `IMPORTS` edge in the graph store. -/
theorem c2_self_loop_edge_created (records : List ImportRecord) (r : ImportRecord)
    (h1 : r ∈ records) (h2 : r.file ∈ r.imports) (h3 : r.file ≠ "") :
    (r.file, r.file) ∈ (create_file_dependency_graph records).edges :=
  foldl_addRecord_edge records _ h1 h2 h3

/-- C2 amended witness: the single self-importing record. -/
theorem c2_self_loop_edge_created_witness :
    (⟨"/a", ["/a"]⟩ : ImportRecord) ∈ [(⟨"/a", ["/a"]⟩ : ImportRecord)]
    ∧ ("/a" : String) ∈ [("/a" : String)]
    ∧ ("/a" : String) ≠ ""
    ∧ ("/a", "/a") ∈ (create_file_dependency_graph [⟨"/a", ["/a"]⟩]).edges :=
  ⟨by decide, by decide, by decide,
   c2_self_loop_edge_created [⟨"/a", ["/a"]⟩] ⟨"/a", ["/a"]⟩
     (by decide) (by decide) (by decide)⟩

/-- C4 counterexample: in a batch of three files where the middle one cannot
be read, the scanning loop of `src/main.py` propagates the failure and the
whole batch fails — no record is collected, even though the remaining file
`g2` is readable.  This refutes C4 as stated. -/
theorem c4_counterexample :
    scanBatch fsC4 5 ["g1", "bad", "g2"] = .error "bad"
    ∧ fsC4.contents "g1" = some []
    ∧ fsC4.contents "g2" = some [] :=
  ⟨rfl, rfl, rfl⟩

/-- C4 amended: a read failure on any file of the batch makes the whole batch
fail: the scanning loop calls `extract_imports` with no exception handling, so
the first unreadable file aborts the run and no list of records is produced. -/
theorem c4_read_failure_aborts_batch (fs : FS) (fuel : Nat) (files : List String)
    (f : String) (h1 : f ∈ files) (h2 : fs.contents f = none) :
    ∃ e, scanBatch fs fuel files = .error e := by
  induction files with
  | nil => exact absurd h1 (List.not_mem_nil _)
  | cons g rest ih =>
    rcases List.mem_cons.mp h1 with heq | htail
    · subst heq
      exact ⟨f, by simp [scanBatch, extract_imports, h2]⟩
    · cases hx : extract_imports fs fuel g with
      | error e => exact ⟨e, by simp [scanBatch, hx]⟩
      | ok r =>
        obtain ⟨e, he⟩ := ih htail
        exact ⟨e, by simp [scanBatch, hx, he]⟩

/-- C4 amended witness: the three-file batch with the unreadable middle
file. -/
theorem c4_read_failure_aborts_batch_witness :
    ("bad" : String) ∈ ["g1", "bad", "g2"]
    ∧ fsC4.contents "bad" = none
    ∧ ∃ e, scanBatch fsC4 5 ["g1", "bad", "g2"] = .error e :=
  ⟨by decide, rfl,
   c4_read_failure_aborts_batch fsC4 5 ["g1", "bad", "g2"] "bad" (by decide) rfl⟩

/-- C9 counterexample: with the nearest `tsconfig.json` (at `/p/q`) malformed
and a parseable ancestor config at `/p` with `baseUrl = "src"`,
`get_tsconfig_base_url` does not yield the empty/default result: it returns
the ancestor's `baseUrl`.  This refutes the "yielding the empty/default
result" part of C9. -/
theorem c9_counterexample :
    fsC9.isfile "/p/q/tsconfig.json" = true
    ∧ fsC9.parse "/p/q/tsconfig.json" = none
    ∧ find_tsconfig_dir fsC9 10 "/p/q" = some "/p/q"
    ∧ get_tsconfig_base_url fsC9 10 "/p/q" = some "src" := by
  refine ⟨?_, ?_, ?_, ?_⟩ <;> decide

/-- C9 amended: when the configuration file in the current directory of the
walk is malformed, `get_tsconfig_base_url` does not raise; it treats the file
as if it were absent and continues the upward walk from the parent directory,
so the empty/default result is produced only when no ancestor configuration
parses. -/
theorem c9_malformed_config_continues_walk (fs : FS) (fuel : Nat) (d : String)
    (h1 : fs.isfile (pathJoin d "tsconfig.json") = true)
    (h2 : fs.parse (abspath fs.cwd (pathJoin d "tsconfig.json")) = none) :
    tsconfigWalk fs (fuel + 1) d
      = if dirname d = d then none else tsconfigWalk fs fuel (dirname d) := by
  simp [tsconfigWalk, h1, h2]

/-- C9 amended witness: the malformed config at `/p/q`. -/
theorem c9_malformed_config_continues_walk_witness :
    fsC9.isfile (pathJoin "/p/q" "tsconfig.json") = true
    ∧ fsC9.parse (abspath fsC9.cwd (pathJoin "/p/q" "tsconfig.json")) = none
    ∧ tsconfigWalk fsC9 10 "/p/q"
        = if dirname "/p/q" = "/p/q" then none else tsconfigWalk fsC9 9 (dirname "/p/q") :=
  ⟨by decide, by decide,
   c9_malformed_config_continues_walk fsC9 9 "/p/q" (by decide) (by decide)⟩

/-- C3: evaluating the pipeline of `src/main.py` at its failing input: the
scan passes relative paths (from walking the relative `code_dir`), so the
record for `b.tsx` carries the relative path verbatim while the resolved
target of the same physical file is absolutized; the resulting graph stores
the same physical file under two distinct `FileNode` identities, contradicting
the claimed always-absolutized invariant (and `extract_imports`' own docstring,
which promises an absolute `file` path). -/
theorem c3_two_identities_for_one_file :
    scanBatch fsC3 20 ["full-stack-nextjs/app/a.tsx", "full-stack-nextjs/app/b.tsx"]
      = .ok [⟨"full-stack-nextjs/app/a.tsx", ["/w/full-stack-nextjs/app/b.tsx"]⟩,
             ⟨"full-stack-nextjs/app/b.tsx", []⟩]
    ∧ "full-stack-nextjs/app/b.tsx"
        ∈ (create_file_dependency_graph
            [⟨"full-stack-nextjs/app/a.tsx", ["/w/full-stack-nextjs/app/b.tsx"]⟩,
             ⟨"full-stack-nextjs/app/b.tsx", []⟩]).nodes
    ∧ "/w/full-stack-nextjs/app/b.tsx"
        ∈ (create_file_dependency_graph
            [⟨"full-stack-nextjs/app/a.tsx", ["/w/full-stack-nextjs/app/b.tsx"]⟩,
             ⟨"full-stack-nextjs/app/b.tsx", []⟩]).nodes
    ∧ abspath fsC3.cwd "full-stack-nextjs/app/b.tsx" = "/w/full-stack-nextjs/app/b.tsx"
    ∧ ("full-stack-nextjs/app/b.tsx" : String) ≠ "/w/full-stack-nextjs/app/b.tsx" :=
  ⟨rfl, by decide, by decide, by decide, by decide⟩
